import Mathlib

/-!
Verification of the llm-chat repository's streaming chat engine and MCP client.

The definitions below are a shallow embedding of the JavaScript source:
  * `Json`, `jsonParse` model the platform `JSON.parse` on the payload
    grammar used by the SSE protocol (objects, arrays, strings, integers,
    booleans, null; a parse error yields `none`);
  * `StreamState`, `processLine`, `processChunk`, `streamCompletionFinal`
    embed the SSE decoding loop of `OpenRouterClient.streamCompletion`
    (react-llm-chat/src/utils/apiClient.js) and the identical loop of
    `ChatEngine.makeStreamingApiRequest`;
  * later sections embed the MCP client (mcpClient.js), the vanilla
    `ChatEngine` turn logic, and the `useChatEngine` hook.
-/

/-- JSON values, as produced by `JSON.parse`. -/
inductive Json where
  | null
  | bool (b : Bool)
  | num (n : Int)
  | str (s : String)
  | arr (xs : List Json)
  | obj (fields : List (String × Json))
deriving Repr

/-- The left-brace character, written by code point. -/
def lbrace : Char := '\x7b'

/-- The right-brace character, written by code point. -/
def rbrace : Char := '\x7d'

/-- Skip JSON whitespace. -/
def skipWs : List Char → List Char
  | c :: cs => if c = ' ' ∨ c = '\n' ∨ c = '\t' ∨ c = '\r' then skipWs cs else c :: cs
  | [] => []

/-- Parse the body of a JSON string literal (after the opening quote),
supporting the escapes the repository's payloads can contain. -/
def parseStringBody (acc : String) : List Char → Option (String × List Char)
  | [] => none
  | '"' :: rest => some (acc, rest)
  | '\\' :: c :: rest =>
    if c = '"' then parseStringBody (acc.push '"') rest
    else if c = '\\' then parseStringBody (acc.push '\\') rest
    else if c = '/' then parseStringBody (acc.push '/') rest
    else if c = 'n' then parseStringBody (acc.push '\n') rest
    else if c = 't' then parseStringBody (acc.push '\t') rest
    else if c = 'r' then parseStringBody (acc.push '\r') rest
    else none
  | '\\' :: [] => none
  | c :: rest => parseStringBody (acc.push c) rest

/-- Parse a run of decimal digits. -/
def parseDigits (acc : Nat) : List Char → Nat × List Char
  | c :: cs => if c.isDigit then parseDigits (acc * 10 + (c.toNat - '0'.toNat)) cs else (acc, c :: cs)
  | [] => (acc, [])

/-- Parse a JSON integer (optional minus sign followed by digits). -/
def parseNumber : List Char → Option (Json × List Char)
  | '-' :: cs =>
    match cs with
    | c :: _ =>
      if c.isDigit then
        let (n, rest) := parseDigits 0 cs
        some (.num (-(n : Int)), rest)
      else none
    | [] => none
  | c :: cs =>
    if c.isDigit then
      let (n, rest) := parseDigits 0 (c :: cs)
      some (.num (n : Int), rest)
    else none
  | [] => none

mutual

/-- Parse one JSON value; `fuel` bounds the recursion depth. -/
def parseValue (fuel : Nat) (cs : List Char) : Option (Json × List Char) :=
  match fuel with
  | 0 => none
  | fuel + 1 =>
    match skipWs cs with
    | [] => none
    | c :: rest =>
      if c = '"' then
        (parseStringBody "" rest).map (fun p => (.str p.1, p.2))
      else if c = lbrace then
        match skipWs rest with
        | c2 :: rest2 =>
          if c2 = rbrace then some (.obj [], rest2)
          else parseMembers fuel (c2 :: rest2) []
        | [] => none
      else if c = '[' then
        match skipWs rest with
        | c2 :: rest2 =>
          if c2 = ']' then some (.arr [], rest2)
          else parseItems fuel (c2 :: rest2) []
        | [] => none
      else if c = 't' then
        if rest.take 3 = ['r', 'u', 'e'] then some (.bool true, rest.drop 3) else none
      else if c = 'f' then
        if rest.take 4 = ['a', 'l', 's', 'e'] then some (.bool false, rest.drop 4) else none
      else if c = 'n' then
        if rest.take 3 = ['u', 'l', 'l'] then some (.null, rest.drop 3) else none
      else parseNumber (c :: rest)

/-- Parse the members of a JSON object, after the opening brace. -/
def parseMembers (fuel : Nat) (cs : List Char) (acc : List (String × Json)) :
    Option (Json × List Char) :=
  match fuel with
  | 0 => none
  | fuel + 1 =>
    match skipWs cs with
    | '"' :: rest =>
      match parseStringBody "" rest with
      | none => none
      | some (key, rest2) =>
        match skipWs rest2 with
        | ':' :: rest3 =>
          match parseValue fuel rest3 with
          | none => none
          | some (v, rest4) =>
            match skipWs rest4 with
            | ',' :: rest5 => parseMembers fuel rest5 (acc ++ [(key, v)])
            | c :: rest5 =>
              if c = rbrace then some (.obj (acc ++ [(key, v)]), rest5) else none
            | [] => none
        | _ => none
    | _ => none

/-- Parse the items of a JSON array, after the opening bracket. -/
def parseItems (fuel : Nat) (cs : List Char) (acc : List Json) :
    Option (Json × List Char) :=
  match fuel with
  | 0 => none
  | fuel + 1 =>
    match parseValue fuel cs with
    | none => none
    | some (v, rest) =>
      match skipWs rest with
      | ',' :: rest2 => parseItems fuel rest2 (acc ++ [v])
      | ']' :: rest2 => some (.arr (acc ++ [v]), rest2)
      | _ => none

end

/-- Model of `JSON.parse`: parse a whole string as one JSON value,
rejecting trailing garbage; `none` models a thrown `SyntaxError`. -/
def jsonParse (s : String) : Option Json :=
  match parseValue (2 * s.length + 2) s.toList with
  | some (v, rest) => if skipWs rest = [] then some v else none
  | none => none

/-- JS member access `obj.key` (undefined on non-objects / absent keys). -/
def jGet (j : Json) (key : String) : Option Json :=
  match j with
  | .obj fields => (fields.find? (fun p => p.1 = key)).map Prod.snd
  | _ => none

/-- JS index access `arr[i]` (undefined on non-arrays / out of range). -/
def jIndex (j : Json) (i : Nat) : Option Json :=
  match j with
  | .arr xs => xs[i]?
  | _ => none

/-- `parsed.type === 'comment'`: the OpenRouter keep-alive comment check. -/
def isCommentPayload (j : Json) : Bool :=
  match jGet j "type" with
  | some (.str t) => t = "comment"
  | _ => false

/-- `parsed.choices?.[0]?.delta?.content`, when it is a string. -/
def deltaContent (j : Json) : Option String :=
  match jGet j "choices" with
  | none => none
  | some choices =>
    match jIndex choices 0 with
    | none => none
    | some choice =>
      match jGet choice "delta" with
      | none => none
      | some delta =>
        match jGet delta "content" with
        | some (.str s) => some s
        | _ => none

/-- Splitter underlying `jsSplit`, structural over the character list. -/
def jsSplitGo (sep : Char) : List Char → String → List String
  | [], acc => [acc]
  | c :: cs, acc => if c = sep then acc :: jsSplitGo sep cs "" else jsSplitGo sep cs (acc.push c)

/-- Model of JS `String.prototype.split` with a one-character separator,
as in `chunk.split('\n')`. -/
def jsSplit (sep : Char) (s : String) : List String :=
  jsSplitGo sep s.toList ""

/-- JS whitespace for `String.prototype.trim`. -/
def isJsWs (c : Char) : Bool :=
  c = ' ' ∨ c = '\n' ∨ c = '\t' ∨ c = '\r'

/-- Model of JS `String.prototype.trim`. -/
def jsTrim (s : String) : String :=
  ⟨((s.data.dropWhile isJsWs).reverse.dropWhile isJsWs).reverse⟩

/-- Model of JS `String.prototype.slice(n)` (code-unit drop). -/
def jsDrop (n : Nat) (s : String) : String :=
  ⟨s.data.drop n⟩

/-- Model of JS `String.prototype.startsWith`. -/
def jsStartsWith (p : String) (s : String) : Bool :=
  p.data.isPrefixOf s.data

/-- State of the SSE streaming decode loop: the accumulated content, the
throttle counter (`updateCount`), the content last committed to the UI or
caller (`emitted`), and whether the `[DONE]` sentinel ended the stream. -/
structure StreamState where
  accumulatedContent : String
  updateCount : Nat
  emitted : String
  finished : Bool
deriving Repr, DecidableEq

/-- Decoder state at the start of a stream. -/
def initStreamState : StreamState := ⟨"", 0, "", false⟩

/-- Process one SSE line, as in the body of the `for (const line of lines)`
loop of `streamCompletion` / `makeStreamingApiRequest`: only `data: ` lines
matter; `[DONE]` forces a final flush and stops the stream; empty payloads,
comment payloads and malformed JSON are skipped; content deltas grow the
accumulator and are committed on every 6th delta. -/
def processLine (st : StreamState) (line : String) : StreamState :=
  if st.finished then st
  else if jsStartsWith "data: " line then
    let data := jsTrim (jsDrop 6 line)
    if data = "[DONE]" then ⟨st.accumulatedContent, st.updateCount, st.accumulatedContent, true⟩
    else if data = "" then st
    else
      match jsonParse data with
      | none => st
      | some parsed =>
        if isCommentPayload parsed then st
        else
          match deltaContent parsed with
          | some content =>
            if content ≠ "" then
              let acc := st.accumulatedContent ++ content
              let n := st.updateCount + 1
              ⟨acc, n, if n % 6 = 0 then acc else st.emitted, false⟩
            else st
          | none => st
  else st

/-- Process one network chunk: `chunk.split('\n')` then the line loop. -/
def processChunk (st : StreamState) (chunk : String) : StreamState :=
  (jsSplit '\n' chunk).foldl processLine st

/-- Force the end-of-stream flush: when the reader reports `done` without a
`[DONE]` sentinel, the final accumulated content is committed. -/
def finishStream (st : StreamState) : StreamState :=
  if st.finished then st
  else ⟨st.accumulatedContent, st.updateCount, st.accumulatedContent, st.finished⟩

/-- Final decoder state after consuming a whole stream delivered as the
given list of chunks (`streamCompletion`'s read loop followed by the
end-of-stream commit). -/
def streamCompletionFinal (chunks : List String) : StreamState :=
  finishStream (chunks.foldl processChunk initStreamState)

/-- Process a chunk given directly as a list of lines. -/
def processLines (st : StreamState) (lines : List String) : StreamState :=
  lines.foldl processLine st

/-- Each line step either leaves the state unchanged, ends the stream with
the accumulated content committed, or continues an unfinished stream. -/
lemma processLine_cases (st : StreamState) (line : String) :
    processLine st line = st ∨
    ((processLine st line).finished = true ∧
      (processLine st line).emitted = (processLine st line).accumulatedContent) ∨
    (processLine st line).finished = false := by
  unfold processLine
  dsimp only
  split
  · exact .inl rfl
  split
  · split
    · exact .inr (.inl ⟨rfl, rfl⟩)
    split
    · exact .inl rfl
    split
    · exact .inl rfl
    split
    · exact .inl rfl
    split
    · split
      · exact .inr (.inr rfl)
      · exact .inl rfl
    · exact .inl rfl
  · exact .inl rfl

/-- The flush invariant (`finished` states have committed exactly the
accumulated content) is preserved by one line step. -/
lemma processLine_flush (st : StreamState) (line : String)
    (h : st.finished = true → st.emitted = st.accumulatedContent) :
    (processLine st line).finished = true →
      (processLine st line).emitted = (processLine st line).accumulatedContent := by
  rcases processLine_cases st line with he | ⟨_, he⟩ | hf
  · rw [he]; exact h
  · exact fun _ => he
  · intro hx; rw [hf] at hx; cases hx

/-- The flush invariant is preserved by a sequence of line steps. -/
lemma processLines_flush (lines : List String) (st : StreamState)
    (h : st.finished = true → st.emitted = st.accumulatedContent) :
    (processLines st lines).finished = true →
      (processLines st lines).emitted = (processLines st lines).accumulatedContent := by
  induction lines generalizing st with
  | nil => exact h
  | cons l ls ih => exact ih (processLine st l) (processLine_flush st l h)

/-- The flush invariant is preserved by a sequence of chunk steps. -/
lemma foldl_processChunk_flush (chunks : List String) (st : StreamState)
    (h : st.finished = true → st.emitted = st.accumulatedContent) :
    (chunks.foldl processChunk st).finished = true →
      (chunks.foldl processChunk st).emitted =
        (chunks.foldl processChunk st).accumulatedContent := by
  induction chunks generalizing st with
  | nil => exact h
  | cons c cs ih => exact ih (processChunk st c) (processLines_flush _ st h)

/-- After the end-of-stream commit, the committed content equals the
accumulated content: the forced final flush loses nothing to throttling. -/
lemma streamCompletionFinal_flush (chunks : List String) :
    (streamCompletionFinal chunks).emitted =
      (streamCompletionFinal chunks).accumulatedContent := by
  unfold streamCompletionFinal finishStream
  split
  · next hf =>
      exact foldl_processChunk_flush chunks initStreamState (by intro h; cases h) hf
  · rfl

/-- The concatenation of the delivered chunks: the unfragmented body. -/
def joinChunks : List String → String
  | [] => ""
  | c :: cs => c ++ joinChunks cs

/-- A chunk that ends exactly at a line boundary. -/
def endsWithNl (s : String) : Bool :=
  s.data.getLast? = some '\n'

/-- `jsSplitGo` never returns an empty list. -/
lemma jsSplitGo_ne_nil (sep : Char) (cs : List Char) (acc : String) :
    jsSplitGo sep cs acc ≠ [] := by
  induction cs generalizing acc with
  | nil => simp [jsSplitGo]
  | cons c cs ih =>
    unfold jsSplitGo
    split
    · simp
    · exact ih _

/-- Step equation of `jsSplitGo` at a separator character. -/
lemma jsSplitGo_cons_sep (sep : Char) (cs : List Char) (acc : String) :
    jsSplitGo sep (sep :: cs) acc = acc :: jsSplitGo sep cs "" := by
  rw [jsSplitGo, if_pos rfl]

/-- Step equation of `jsSplitGo` at a non-separator character. -/
lemma jsSplitGo_cons_ne (sep c : Char) (cs : List Char) (acc : String)
    (h : ¬c = sep) :
    jsSplitGo sep (c :: cs) acc = jsSplitGo sep cs (acc.push c) := by
  rw [jsSplitGo, if_neg h]

/-- Splitting a string that ends with the separator: the split of an
appended string is the split of the first part (whose last field is the
empty field after the final separator, dropped) followed by the split of
the second part. -/
lemma jsSplitGo_append_sep (sep : Char) (xs ys : List Char) (acc : String)
    (h : xs.getLast? = some sep) :
    jsSplitGo sep (xs ++ ys) acc =
      (jsSplitGo sep xs acc).dropLast ++ jsSplitGo sep ys "" := by
  induction xs generalizing acc with
  | nil => simp at h
  | cons c cs ih =>
    cases cs with
    | nil =>
      have hc : c = sep := by simpa using h
      subst hc
      simp [jsSplitGo_cons_sep, jsSplitGo]
    | cons c2 cs2 =>
      have h' : (c2 :: cs2).getLast? = some sep := by
        rwa [List.getLast?_cons_cons] at h
      by_cases hc : c = sep
      · subst hc
        rw [List.cons_append, jsSplitGo_cons_sep, jsSplitGo_cons_sep, ih _ h',
          List.dropLast_cons_of_ne_nil (jsSplitGo_ne_nil c (c2 :: cs2) ""),
          List.cons_append]
      · rw [List.cons_append, jsSplitGo_cons_ne sep c _ _ hc,
          jsSplitGo_cons_ne sep c _ _ hc, ih _ h']

/-- A string ending with the separator splits into fields whose last field
is empty. -/
lemma jsSplitGo_getLast_sep (sep : Char) (cs : List Char) (acc : String)
    (h : cs.getLast? = some sep) :
    (jsSplitGo sep cs acc).getLast? = some "" := by
  induction cs generalizing acc with
  | nil => simp at h
  | cons c cs ih =>
    cases cs with
    | nil =>
      have hc : c = sep := by simpa using h
      subst hc
      simp [jsSplitGo_cons_sep, jsSplitGo]
    | cons c2 cs2 =>
      have h' : (c2 :: cs2).getLast? = some sep := by
        rwa [List.getLast?_cons_cons] at h
      by_cases hc : c = sep
      · subst hc
        rw [jsSplitGo_cons_sep]
        have hrec := ih "" h'
        cases hne : jsSplitGo c (c2 :: cs2) "" with
        | nil => exact absurd hne (jsSplitGo_ne_nil c (c2 :: cs2) "")
        | cons a l =>
          rw [hne] at hrec
          rw [List.getLast?_cons_cons]
          exact hrec
      · rw [jsSplitGo_cons_ne sep c _ _ hc]
        exact ih _ h'

/-- A blank SSE line is a no-op for the decoder. -/
lemma processLine_empty (st : StreamState) : processLine st "" = st := by
  unfold processLine
  split <;> rfl

/-- Consuming the lines of a chunk that ends at a line boundary and then
the lines of the rest of the body is the same as consuming the lines of
their concatenation: no content straddles the cut. -/
lemma processChunk_append_of_nl (st : StreamState) (c r : String)
    (h : endsWithNl c = true) :
    processChunk st (c ++ r) = processChunk (processChunk st c) r := by
  have hdata : (c ++ r).data = c.data ++ r.data := rfl
  have hlast : c.data.getLast? = some '\n' := by
    simpa [endsWithNl] using h
  have hsplit : jsSplit '\n' (c ++ r) =
      (jsSplit '\n' c).dropLast ++ jsSplit '\n' r := by
    unfold jsSplit
    rw [show (c ++ r).toList = c.data ++ r.data from rfl]
    exact jsSplitGo_append_sep '\n' c.data r.data "" hlast
  have hchunk : processChunk st c =
      (jsSplit '\n' c).dropLast.foldl processLine st := by
    have hne : jsSplit '\n' c ≠ [] := jsSplitGo_ne_nil '\n' c.toList ""
    have hl : (jsSplit '\n' c).getLast? = some "" :=
      jsSplitGo_getLast_sep '\n' c.toList "" hlast
    have hdecomp : (jsSplit '\n' c).dropLast ++ [""] = jsSplit '\n' c := by
      have h1 := List.dropLast_concat_getLast hne
      have h2 : (jsSplit '\n' c).getLast hne = "" := by
        have h3 := hl
        rw [List.getLast?_eq_getLast _ hne, Option.some_inj] at h3
        exact h3
      rw [← h2]
      exact h1
    conv_lhs => rw [processChunk, ← hdecomp]
    rw [List.foldl_append]
    simp [processLine_empty]
  rw [processChunk, hsplit, List.foldl_append, ← hchunk]
  rfl

/-- Decoding chunks in sequence is decoding the unfragmented body, when
each chunk but the last ends at a line boundary. -/
lemma foldl_processChunk_join (chunks : List String) (st : StreamState)
    (h : chunks.dropLast.all endsWithNl = true) :
    chunks.foldl processChunk st = processChunk st (joinChunks chunks) := by
  induction chunks generalizing st with
  | nil => simp [joinChunks, processChunk, jsSplit, jsSplitGo, processLine_empty]
  | cons c cs ih =>
    cases cs with
    | nil =>
      simp only [List.foldl_cons, List.foldl_nil, joinChunks]
      rw [String.append_empty]
    | cons d ds =>
      have hc : endsWithNl c = true := by
        have := h
        simp only [List.dropLast_cons₂, List.all_cons, Bool.and_eq_true] at this
        exact this.1
      have hrest : (d :: ds).dropLast.all endsWithNl = true := by
        have := h
        simp only [List.dropLast_cons₂, List.all_cons, Bool.and_eq_true] at this
        exact this.2
      calc (c :: d :: ds).foldl processChunk st
          = (d :: ds).foldl processChunk (processChunk st c) := rfl
        _ = processChunk (processChunk st c) (joinChunks (d :: ds)) :=
            ih (processChunk st c) hrest
        _ = processChunk st (c ++ joinChunks (d :: ds)) :=
            (processChunk_append_of_nl st c _ hc).symm
        _ = processChunk st (joinChunks (c :: d :: ds)) := rfl

/-- C1 (amended): for every fragmentation of a full SSE body into chunks
that cut the body at line boundaries (each chunk except the last ends with
a newline), the decoder's final state — in particular the final committed
content — equals that of the same body delivered as one chunk; and in all
cases the forced final flush makes the committed content equal the total
accumulated content, so no content is lost to throttling.  (The original
claim, quantifying over arbitrary cut points, fails: a cut in the middle
of a `data:` line corrupts that line's JSON, see the counterexample.) -/
theorem streamCompletion_fragmentation_invariant (chunks : List String)
    (h : chunks.dropLast.all endsWithNl = true) :
    streamCompletionFinal chunks = streamCompletionFinal [joinChunks chunks] ∧
    (streamCompletionFinal chunks).emitted =
      (streamCompletionFinal chunks).accumulatedContent := by
  constructor
  · unfold streamCompletionFinal
    rw [foldl_processChunk_join chunks initStreamState h]
    rfl
  · exact streamCompletionFinal_flush chunks

/-- Witness for C1: a concrete two-chunk fragmentation at a line boundary
decodes exactly like the unfragmented body. -/
theorem streamCompletion_fragmentation_invariant_witness :
    (["data: \x7b\"choices\":[\x7b\"delta\":\x7b\"content\":\"Hel\"\x7d\x7d]\x7d\n",
        "data: \x7b\"choices\":[\x7b\"delta\":\x7b\"content\":\"lo\"\x7d\x7d]\x7d\ndata: [DONE]\n"]
      : List String).dropLast.all endsWithNl = true ∧
    streamCompletionFinal
        ["data: \x7b\"choices\":[\x7b\"delta\":\x7b\"content\":\"Hel\"\x7d\x7d]\x7d\n",
          "data: \x7b\"choices\":[\x7b\"delta\":\x7b\"content\":\"lo\"\x7d\x7d]\x7d\ndata: [DONE]\n"] =
      streamCompletionFinal
        [joinChunks
          ["data: \x7b\"choices\":[\x7b\"delta\":\x7b\"content\":\"Hel\"\x7d\x7d]\x7d\n",
            "data: \x7b\"choices\":[\x7b\"delta\":\x7b\"content\":\"lo\"\x7d\x7d]\x7d\ndata: [DONE]\n"]] ∧
    (streamCompletionFinal
        ["data: \x7b\"choices\":[\x7b\"delta\":\x7b\"content\":\"Hel\"\x7d\x7d]\x7d\n",
          "data: \x7b\"choices\":[\x7b\"delta\":\x7b\"content\":\"lo\"\x7d\x7d]\x7d\ndata: [DONE]\n"]).emitted
      = "Hello" :=
  ⟨by decide, (streamCompletion_fragmentation_invariant _ (by decide)).1, by decide⟩

/-- Counterexample to C1 as stated: splitting the body in the middle of a
`data:` line corrupts the line (no cross-chunk buffering exists), so the
two-chunk decode commits `""` while the unfragmented decode commits
`"ab"`. -/
theorem streamCompletion_midline_split_cex :
    joinChunks ["data: \x7b\"choi",
        "ces\":[\x7b\"delta\":\x7b\"content\":\"ab\"\x7d\x7d]\x7d"] =
      "data: \x7b\"choices\":[\x7b\"delta\":\x7b\"content\":\"ab\"\x7d\x7d]\x7d" ∧
    (streamCompletionFinal
        ["data: \x7b\"choices\":[\x7b\"delta\":\x7b\"content\":\"ab\"\x7d\x7d]\x7d"]).emitted
      = "ab" ∧
    (streamCompletionFinal ["data: \x7b\"choi",
        "ces\":[\x7b\"delta\":\x7b\"content\":\"ab\"\x7d\x7d]\x7d"]).emitted = "" :=
  ⟨by decide, by decide, by decide⟩

/-!
MCP client (mcpClient.js): pending-request map, transport detection,
disconnect, and the not-connected guard.
-/

/-- JS `Map.prototype.set`: update the entry in place if the key exists,
otherwise append, preserving insertion order. -/
def mapSet {α : Type} : List (Int × α) → Int → α → List (Int × α)
  | [], k, v => [(k, v)]
  | p :: rest, k, v => if p.1 = k then (k, v) :: rest else p :: mapSet rest k v

/-- JS `Map.prototype.get` (`none` models `undefined`). -/
def mapGet {α : Type} : List (Int × α) → Int → Option α
  | [], _ => none
  | p :: rest, k => if p.1 = k then some p.2 else mapGet rest k

/-- JS `Map.prototype.has`. -/
def mapHas {α : Type} (m : List (Int × α)) (k : Int) : Bool :=
  (mapGet m k).isSome

/-- JS `Map.prototype.delete` (keys are unique in a `Map`, so removing
every entry with the key is `delete`'s behaviour). -/
def mapDelete {α : Type} (m : List (Int × α)) (k : Int) : List (Int × α) :=
  m.filter (fun p => p.1 != k)

/-- The JSON-RPC envelope's `id` as used by `handleSSEMessage`'s
`message.id && this.pendingRequests.has(message.id)` test: a numeric id,
with `0` falsy.  (A non-numeric id is truthy in JS but can never match a
numeric key in the pending map, so its net effect on the map — none — is
the same as `none` here.) -/
def jsMsgId (j : Json) : Option Int :=
  match jGet j "id" with
  | some (.num n) => if n ≠ 0 then some n else none
  | _ => none

/-- `MCPClient.handleSSEMessage`: parse the event data; when the envelope
carries an id with a pending entry, invoke that entry's resolver (returned
as the second component) and delete the entry; otherwise leave the map
unchanged (malformed JSON or unmatched ids only produce a console
warning). -/
def handleSSEMessage {α : Type} (pending : List (Int × α)) (data : String) :
    List (Int × α) × Option α :=
  match jsonParse data with
  | none => (pending, none)
  | some message =>
    match jsMsgId message with
    | some id =>
      if mapHas pending id then (mapDelete pending id, mapGet pending id)
      else (pending, none)
    | none => (pending, none)

/-- `MCPClient.waitForSSEResponse`: register the resolver for `messageId`
in the pending-request map (the promise executor runs synchronously). -/
def waitForSSEResponse {α : Type} (pending : List (Int × α)) (messageId : Int)
    (resolver : α) : List (Int × α) :=
  mapSet pending messageId resolver

/-- The timeout handler installed by `waitForSSEResponse`: on expiry the
pending entry is deleted and the call rejects with `SSE response timeout`. -/
def sseResponseTimeout {α : Type} (pending : List (Int × α)) (messageId : Int) :
    List (Int × α) :=
  mapDelete pending messageId

/-- The externally visible steps taken by `sendMessageSSELegacy` before
awaiting the response. -/
inductive SSESendStep (α : Type) where
  | registerPending (id : Int) (resolver : α)
  | postRequest (id : Int)

/-- `MCPClient.sendMessageSSELegacy`: build the JSON-RPC message with the
next id, set up the pending entry (comment in source: BEFORE sending, to
avoid the race), then POST to the message endpoint.  Returns the ordered
step trace and the pending map after registration. -/
def sendMessageSSELegacy {α : Type} (pending : List (Int × α)) (id : Int)
    (resolver : α) : List (SSESendStep α) × List (Int × α) :=
  ([.registerPending id resolver, .postRequest id],
    waitForSSEResponse pending id resolver)

/-- `mapGet` after `mapSet` at the same key. -/
lemma mapGet_set_self {α : Type} (m : List (Int × α)) (k : Int) (v : α) :
    mapGet (mapSet m k v) k = some v := by
  induction m with
  | nil => simp [mapSet, mapGet]
  | cons p rest ih =>
    by_cases h : p.1 = k
    · simp [mapSet, mapGet, h]
    · simp [mapSet, mapGet, h, ih]

/-- Deleting the key just set removes exactly that entry. -/
lemma mapDelete_set_self {α : Type} (m : List (Int × α)) (k : Int) (v : α) :
    mapDelete (mapSet m k v) k = mapDelete m k := by
  induction m with
  | nil => simp [mapSet, mapDelete, List.filter]
  | cons p rest ih =>
    by_cases h : p.1 = k
    · simp [mapSet, mapDelete, List.filter, h]
    · simp only [mapSet, if_neg h, mapDelete, List.filter] at *
      rw [show (p.1 != k) = true by simpa using h]
      simp only [ih]

/-- Lookup of other keys is unaffected by a delete. -/
lemma mapGet_delete_ne {α : Type} (m : List (Int × α)) (k k' : Int)
    (h : k' ≠ k) : mapGet (mapDelete m k) k' = mapGet m k' := by
  induction m with
  | nil => rfl
  | cons p rest ih =>
    by_cases hp : p.1 = k
    · have h1 : mapDelete (p :: rest) k = mapDelete rest k := by
        simp [mapDelete, List.filter, hp]
      have hp' : ¬p.1 = k' := by rw [hp]; exact fun he => h he.symm
      rw [h1, ih]
      simp [mapGet, hp']
    · simp only [mapDelete, List.filter] at *
      rw [show (p.1 != k) = true by simpa using hp]
      by_cases hq : p.1 = k'
      · simp [mapGet, hq]
      · simp [mapGet, hq, ih]

/-- After a delete the key has no entry. -/
lemma mapGet_delete_self {α : Type} (m : List (Int × α)) (k : Int) :
    mapGet (mapDelete m k) k = none := by
  induction m with
  | nil => rfl
  | cons p rest ih =>
    by_cases hp : p.1 = k
    · simpa [mapDelete, List.filter, hp] using ih
    · simp only [mapDelete, List.filter] at *
      rw [show (p.1 != k) = true by simpa using hp]
      simp [mapGet, hp, ih]

/-- C2: for an SSE-legacy JSON-RPC request, the pending entry is registered
before the POST in `sendMessageSSELegacy`'s step trace; a later `message`
event whose JSON envelope carries the same id resolves exactly the
registered resolver and deletes exactly that map entry (other entries keep
their resolvers); and the timeout handler removes the entry, so neither
path leaks a map entry. -/
theorem sseLegacy_pending_correlation {α : Type} (pending : List (Int × α))
    (id : Int) (r : α) (data : String)
    (hid : (jsonParse data).bind jsMsgId = some id) :
    (sendMessageSSELegacy pending id r).1 =
      [.registerPending id r, .postRequest id] ∧
    handleSSEMessage (waitForSSEResponse pending id r) data =
      (mapDelete pending id, some r) ∧
    mapGet (handleSSEMessage (waitForSSEResponse pending id r) data).1 id = none ∧
    (∀ k, k ≠ id →
      mapGet (handleSSEMessage (waitForSSEResponse pending id r) data).1 k =
        mapGet pending k) ∧
    sseResponseTimeout (waitForSSEResponse pending id r) id = mapDelete pending id ∧
    mapGet (sseResponseTimeout (waitForSSEResponse pending id r) id) id = none := by
  obtain ⟨j, hj, hjid⟩ : ∃ j, jsonParse data = some j ∧ jsMsgId j = some id := by
    cases hjp : jsonParse data with
    | none => rw [hjp] at hid; cases hid
    | some j => exact ⟨j, rfl, by rwa [hjp] at hid⟩
  have hhandle : handleSSEMessage (waitForSSEResponse pending id r) data =
      (mapDelete pending id, some r) := by
    unfold handleSSEMessage waitForSSEResponse
    simp only [hj, hjid, mapHas, mapGet_set_self, mapDelete_set_self,
      Option.isSome_some, if_true]
  refine ⟨rfl, hhandle, ?_, ?_, ?_, ?_⟩
  · rw [hhandle]
    exact mapGet_delete_self pending id
  · intro k hk
    rw [hhandle]
    exact mapGet_delete_ne pending id k hk
  · unfold sseResponseTimeout waitForSSEResponse
    exact mapDelete_set_self pending id r
  · unfold sseResponseTimeout waitForSSEResponse
    rw [mapDelete_set_self pending id r]
    exact mapGet_delete_self pending id

/-- Witness for C2: id 7 with a pending map holding ids 3 and 7. -/
theorem sseLegacy_pending_correlation_witness :
    (jsonParse "\x7b\"jsonrpc\":\"2.0\",\"id\":7,\"result\":\x7b\x7d\x7d").bind jsMsgId
      = some 7 ∧
    handleSSEMessage (waitForSSEResponse [((3 : Int), (10 : Nat))] 7 20)
        "\x7b\"jsonrpc\":\"2.0\",\"id\":7,\"result\":\x7b\x7d\x7d" =
      (mapDelete [((3 : Int), (10 : Nat))] 7, some 20) ∧
    sseResponseTimeout (waitForSSEResponse [((3 : Int), (10 : Nat))] 7 20) 7 =
      mapDelete [((3 : Int), (10 : Nat))] 7 :=
  ⟨by decide,
    (sseLegacy_pending_correlation [((3 : Int), (10 : Nat))] 7 20 _ (by decide)).2.1,
    (sseLegacy_pending_correlation [((3 : Int), (10 : Nat))] 7 20
      "\x7b\"jsonrpc\":\"2.0\",\"id\":7,\"result\":\x7b\x7d\x7d" (by decide)).2.2.2.2.1⟩

/-- Outcome of one `fetch` probe: the fetch threw (network error), or a
response arrived with `response.ok` and a `content-type` header (`none`
models an absent header). -/
inductive FetchOutcome where
  | threw
  | resp (ok : Bool) (contentType : Option String)

/-- Substring occurrence over character lists. -/
def listIsInfix (needle : List Char) : List Char → Bool
  | [] => needle.isEmpty
  | c :: rest => needle.isPrefixOf (c :: rest) || listIsInfix needle rest

/-- Model of JS `String.prototype.includes`. -/
def jsIncludes (needle hay : String) : Bool :=
  listIsInfix needle.data hay.data

/-- `response.headers.get('content-type')?.includes('text/event-stream')`
coerced to a condition (an absent header gives `undefined`, falsy). -/
def ctIncludesEventStream : Option String → Bool
  | some ct => jsIncludes "text/event-stream" ct
  | none => false

/-- `MCPClient.detectTransport`: try the JSON-RPC `ping` POST (with
`Accept: application/json, text/event-stream`); if `response.ok`, return
`streamable-http` (a thrown fetch or a non-ok response falls through).
Then try the GET probe with `Accept: text/event-stream`; if it is ok and
its content type includes `text/event-stream`, return `sse-legacy`.
Otherwise throw `No supported MCP transport detected`. -/
def detectTransport (post get : FetchOutcome) : Except String String :=
  match post with
  | .resp true _ => .ok "streamable-http"
  | _ =>
    match get with
    | .resp ok ct =>
      if ok && ctIncludesEventStream ct then .ok "sse-legacy"
      else .error "No supported MCP transport detected"
    | .threw => .error "No supported MCP transport detected"

/-- The probes `detectTransport` actually issues, in order: the POST probe
always, the GET probe only when the POST probe did not succeed; neither is
ever retried. -/
def detectTransportProbes (post : FetchOutcome) : List String :=
  match post with
  | .resp true _ => ["POST"]
  | _ => ["POST", "GET"]

/-- The transport-selection step of `MCPClient.connect`: auto-detect only
when the configured transport is `auto`. -/
def connectSelectTransport (transport : String) (post get : FetchOutcome) :
    Except String String :=
  if transport = "auto" then detectTransport post get else .ok transport

/-- Spec-side wording of "the ping POST succeeds" (it yielded a response
with `response.ok`). -/
def postProbeSucceeds : FetchOutcome → Bool
  | .resp true _ => true
  | _ => false

/-- Spec-side wording of "the GET probe succeeds and its response content
type is an event stream". -/
def getProbeSelectsSSE : FetchOutcome → Bool
  | .resp ok ct => ok && ctIncludesEventStream ct
  | .threw => false

/-- C3: with transport `auto`, connect selects `streamable-http` exactly
when the ping POST succeeds; otherwise `sse-legacy` exactly when the GET
probe succeeds with an event-stream content type; otherwise it fails with
the `no supported transport` error; and each probe is issued at most once
(the GET probe not at all when the POST probe succeeds). -/
theorem mcp_transport_auto_detection (post get : FetchOutcome) :
    connectSelectTransport "auto" post get =
      (if postProbeSucceeds post then .ok "streamable-http"
       else if getProbeSelectsSSE get then .ok "sse-legacy"
       else .error "No supported MCP transport detected") ∧
    detectTransportProbes post =
      (if postProbeSucceeds post then ["POST"] else ["POST", "GET"]) := by
  constructor
  · cases post with
    | threw =>
      cases get with
      | threw => simp [connectSelectTransport, detectTransport, postProbeSucceeds,
          getProbeSelectsSSE]
      | resp ok ct =>
        cases ok <;> simp [connectSelectTransport, detectTransport, postProbeSucceeds,
          getProbeSelectsSSE]
    | resp ok ct =>
      cases ok with
      | true => simp [connectSelectTransport, detectTransport, postProbeSucceeds]
      | false =>
        cases get with
        | threw => simp [connectSelectTransport, detectTransport, postProbeSucceeds,
            getProbeSelectsSSE]
        | resp ok2 ct2 =>
          cases ok2 <;> simp [connectSelectTransport, detectTransport, postProbeSucceeds,
            getProbeSelectsSSE]
  · cases post with
    | threw => rfl
    | resp ok ct => cases ok <;> rfl

/-- State of an `MCPClient` object (mcpClient.js constructor fields).  The
converted tool list is represented by the tool names; SSE resolvers by
opaque tokens; the open `EventSource` by an opaque handle. -/
structure MCPClientState where
  serverUrl : String
  transport : String
  tools : List String
  connected : Bool
  messageId : Int
  sessionId : Option String
  sseConnection : Option Nat
  messageEndpoint : Option String
  pendingRequests : List (Int × Nat)
deriving Repr, DecidableEq

/-- `new MCPClient(serverUrl, transport)`. -/
def mkMCPClient (serverUrl : String) (transport : String) : MCPClientState :=
  ⟨serverUrl, transport, [], false, 1, none, none, none, []⟩

/-- `MCPClient.disconnect`: close the SSE connection if one exists (the
second component reports whether one was closed), clear the endpoint and
pending requests, and reset `connected`, `tools` and `sessionId`. -/
def MCPClientState.disconnect (s : MCPClientState) : MCPClientState × Bool :=
  (⟨s.serverUrl, s.transport, [], false, s.messageId, none, none, none, []⟩,
    s.sseConnection.isSome)

/-- C6 (amended): `disconnect` closes the EventSource when one is open,
empties the pending-request map, and resets `messageEndpoint`,
`connected`, `tools` and `sessionId` to their constructor values — but it
leaves `transport` (overwritten by auto-detection during `connect`) and
the `messageId` counter untouched, so a subsequent `connect()` on the same
object reuses the previously detected transport instead of re-detecting,
unlike a freshly constructed client. -/
theorem mcp_disconnect_resets (s : MCPClientState) :
    s.disconnect.1.pendingRequests = [] ∧
    s.disconnect.1.connected = false ∧
    s.disconnect.1.tools = [] ∧
    s.disconnect.1.sessionId = none ∧
    s.disconnect.1.sseConnection = none ∧
    s.disconnect.1.messageEndpoint = none ∧
    s.disconnect.2 = s.sseConnection.isSome ∧
    s.disconnect.1.transport = s.transport ∧
    s.disconnect.1.messageId = s.messageId ∧
    s.disconnect.1.serverUrl = s.serverUrl :=
  ⟨rfl, rfl, rfl, rfl, rfl, rfl, rfl, rfl, rfl, rfl⟩

/-- Counterexample to C6 as stated: a client constructed with transport
`auto` whose `connect()` detected `sse-legacy` (and advanced the message
id to 3) does not return to its constructor state on `disconnect`: the
detected transport and the id counter survive. -/
theorem mcp_disconnect_not_fresh_cex :
    (MCPClientState.disconnect
        ⟨"http://srv", "sse-legacy", ["add_numbers"], true, 3, some "sess",
          some 1, some "http://srv/messages", [(2, 0)]⟩).1 ≠
      mkMCPClient "http://srv" "auto" ∧
    (MCPClientState.disconnect
        ⟨"http://srv", "sse-legacy", ["add_numbers"], true, 3, some "sess",
          some 1, some "http://srv/messages", [(2, 0)]⟩).1.transport
      = "sse-legacy" ∧
    (MCPClientState.disconnect
        ⟨"http://srv", "sse-legacy", ["add_numbers"], true, 3, some "sess",
          some 1, some "http://srv/messages", [(2, 0)]⟩).1.messageId = 3 ∧
    (mkMCPClient "http://srv" "auto").transport = "auto" ∧
    (mkMCPClient "http://srv" "auto").messageId = 1 :=
  ⟨by decide, rfl, rfl, rfl, rfl⟩

/-- A JSON-RPC interaction issued by a tool call. -/
inductive McpCallStep where
  | sendRequest (method : String) (toolName : String)

/-- `MCPClient.callTool`'s guard and first action: throw
`Not connected to MCP server` unless connected, otherwise send the
`tools/call` request. -/
def MCPClient.callToolSteps (connected : Bool) (toolName : String) :
    Except String (List McpCallStep) :=
  if !connected then .error "Not connected to MCP server"
  else .ok [.sendRequest "tools/call" toolName]

/-- `ImprovedMCPClient.callTool`'s guard and first action (identical guard
in mcpClientImproved). -/
def ImprovedMCPClient.callToolSteps (connected : Bool) (toolName : String) :
    Except String (List McpCallStep) :=
  if !connected then .error "Not connected to MCP server"
  else .ok [.sendRequest "tools/call" toolName]

/-- C10: calling `callTool` on a client that is not connected — as after
construction (`connected` starts `false`) or after `disconnect` (which
sets it `false`) — throws `Not connected to MCP server` on both client
classes, and no JSON-RPC request step is produced. -/
theorem callTool_not_connected (toolName : String) (url tr : String)
    (s : MCPClientState) :
    MCPClient.callToolSteps false toolName =
      .error "Not connected to MCP server" ∧
    ImprovedMCPClient.callToolSteps false toolName =
      .error "Not connected to MCP server" ∧
    (mkMCPClient url tr).connected = false ∧
    s.disconnect.1.connected = false :=
  ⟨rfl, rfl, rfl, rfl⟩

/-!
Vanilla ChatEngine (ChatEngine.sendMessage and its two request paths).
-/

/-- A message of the vanilla `ChatEngine` store (`{role, content}`). -/
structure CMsg where
  role : String
  content : String
deriving Repr, DecidableEq

/-- Outcome of `makeStreamingApiRequest` as observed by `sendMessage`:
either the stream completed with the final accumulated content, or it
threw, leaving whatever content the throttled updates had committed in
the assistant message. -/
inductive StreamOutcome where
  | ok (finalContent : String)
  | fail (committed : String) (err : String)

/-- The store's `updateMessage` mutation:
`if (state.messages[index]) state.messages[index].content = content`. -/
def updateMessage (msgs : List CMsg) (index : Nat) (content : String) :
    List CMsg :=
  match msgs[index]? with
  | some m => msgs.set index { m with content := content }
  | none => msgs

/-- `ChatEngine.sendMessage`: append the user message and the empty
assistant placeholder, try the streaming request (whose body carries
`getMessages().slice(0, -1)`), and on failure fall back to
`makeApiRequest` (whose body carries the full `getMessages()`); if the
fallback also fails, write `Error: <message>` into the assistant message
and rethrow.  Returns the final message list, the propagated result and
the ordered list of request payloads issued. -/
def ChatEngine.sendMessageRun (initMsgs : List CMsg) (userMessage : String)
    (streamOutcome : StreamOutcome) (fallbackOutcome : Except String String) :
    List CMsg × Except String Unit × List (List CMsg) :=
  let msgs1 := initMsgs ++ [⟨"user", userMessage⟩]
  let aiMessageIndex := msgs1.length
  let msgs2 := msgs1 ++ [⟨"assistant", ""⟩]
  let streamingPayload := msgs2.dropLast
  match streamOutcome with
  | .ok finalContent =>
    (updateMessage msgs2 aiMessageIndex finalContent, .ok (), [streamingPayload])
  | .fail committed _ =>
    let msgs3 := updateMessage msgs2 aiMessageIndex committed
    let fallbackPayload := msgs3
    match fallbackOutcome with
    | .ok aiMessage =>
      (updateMessage msgs3 aiMessageIndex aiMessage, .ok (),
        [streamingPayload, fallbackPayload])
    | .error e =>
      (updateMessage msgs3 aiMessageIndex ("Error: " ++ e), .error e,
        [streamingPayload, fallbackPayload])

/-- The requests issued by one `useChatEngine` streamed turn: the
streaming request carries `apiMessages`; on streaming failure,
`handleStreamingError(err, apiMessages)` issues the single fallback
`getCompletion(apiMessages, ...)` with the very same list. -/
def reactStreamTurnRequests {α : Type} (apiMessages : List α)
    (streamFails : Bool) : List (List α) :=
  if streamFails then [apiMessages, apiMessages] else [apiMessages]

/-- Setting the element just past a prefix updates the appended element. -/
lemma updateMessage_append (msgs1 : List CMsg) (m : CMsg) (c : String) :
    updateMessage (msgs1 ++ [m]) msgs1.length c =
      msgs1 ++ [{ m with content := c }] := by
  unfold updateMessage
  rw [List.getElem?_concat_length]
  induction msgs1 with
  | nil => rfl
  | cons p rest ih => simp [List.set, ih]

/-- C4 (amended): when the streaming request of a turn fails, the single
fallback request follows with a payload that, in `useChatEngine`
(handleStreamingError), is exactly the streaming request's `apiMessages`
list, while in the vanilla `ChatEngine` it is the streaming request's
list plus the trailing in-progress assistant placeholder (holding the
partially committed content), because the streaming body uses
`getMessages().slice(0, -1)` but the fallback body uses the full
`getMessages()`. -/
theorem fallback_request_payload {α : Type} (initMsgs : List CMsg)
    (userMessage committed err : String) (fb : Except String String)
    (apiMessages : List α) :
    (ChatEngine.sendMessageRun initMsgs userMessage
        (.fail committed err) fb).2.2 =
      [initMsgs ++ [⟨"user", userMessage⟩],
        (initMsgs ++ [⟨"user", userMessage⟩]) ++ [⟨"assistant", committed⟩]] ∧
    reactStreamTurnRequests apiMessages true = [apiMessages, apiMessages] := by
  constructor
  · have hpay : updateMessage ((initMsgs ++ [(⟨"user", userMessage⟩ : CMsg)]) ++
        [(⟨"assistant", ""⟩ : CMsg)])
          (initMsgs ++ [(⟨"user", userMessage⟩ : CMsg)]).length committed =
        (initMsgs ++ [(⟨"user", userMessage⟩ : CMsg)]) ++
          [(⟨"assistant", committed⟩ : CMsg)] :=
      updateMessage_append _ _ _
    unfold ChatEngine.sendMessageRun
    dsimp only
    rw [hpay]
    cases fb <;> simp [List.dropLast_concat]
  · rfl

/-- Counterexample to C4 as stated: in the vanilla `ChatEngine`, with one
system message and user text `hi`, the failed streaming request carries
two messages but the fallback carries three (the assistant placeholder is
included), so the two payloads differ. -/
theorem fallback_request_payload_cex :
    (ChatEngine.sendMessageRun [⟨"system", "You are a helpful AI assistant."⟩]
        "hi" (.fail "" "network error") (.error "HTTP error! status: 500")).2.2 =
      [[⟨"system", "You are a helpful AI assistant."⟩, ⟨"user", "hi"⟩],
        [⟨"system", "You are a helpful AI assistant."⟩, ⟨"user", "hi"⟩,
          ⟨"assistant", ""⟩]] ∧
    ([⟨"system", "You are a helpful AI assistant."⟩, ⟨"user", "hi"⟩] : List CMsg) ≠
      [⟨"system", "You are a helpful AI assistant."⟩, ⟨"user", "hi"⟩,
        ⟨"assistant", ""⟩] :=
  ⟨by decide, by decide⟩

/-- C5: when the streaming request and the non-streaming fallback both
fail, `ChatEngine.sendMessage` leaves the assistant placeholder holding
`Error: <fallback message>`, rethrows the fallback error to its caller,
and issues exactly the two requests (streaming, then one fallback) —
nothing further for that turn. -/
theorem sendMessage_both_failures_terminal (initMsgs : List CMsg)
    (userMessage committed e1 e2 : String) :
    (ChatEngine.sendMessageRun initMsgs userMessage
        (.fail committed e1) (.error e2)).1 =
      initMsgs ++ [⟨"user", userMessage⟩, ⟨"assistant", "Error: " ++ e2⟩] ∧
    (ChatEngine.sendMessageRun initMsgs userMessage
        (.fail committed e1) (.error e2)).2.1 = .error e2 ∧
    (ChatEngine.sendMessageRun initMsgs userMessage
        (.fail committed e1) (.error e2)).2.2.length = 2 := by
  refine ⟨?_, rfl, rfl⟩
  unfold ChatEngine.sendMessageRun
  dsimp only
  rw [updateMessage_append, updateMessage_append]
  simp

/-!
useChatEngine (react hook): message model, outgoing API lists,
placeholder handling and the concurrency guard.
-/

/-- Modelled from the spec: the display-only role of tool-execution
messages, `MESSAGE_ROLES.TOOL_EXECUTION`.  The tool-enabled variant of
`constants.js` (imported by the hook) is not among the provided sources;
the spec's data model names the role `tool_execution`. -/
def TOOL_EXECUTION : String := "tool_execution"

/-- A tool call as carried on messages
(`{id, function: {name, arguments}}`, flattened). -/
structure ToolCall where
  id : String
  name : String
  arguments : String
deriving Repr, DecidableEq

/-- The display payload of a `tool_execution` message (`{toolCall,
toolResult}`), with the parsed objects kept as their source texts. -/
structure ToolExec where
  name : String
  argumentsText : String
  resultText : String
deriving Repr, DecidableEq

/-- A message of the `useChatEngine` state (`addMessage`'s shape). -/
structure ChatMsg where
  id : String
  role : String
  content : String
  timestamp : Nat
  tool_calls : Option (List ToolCall) := none
  tool_call_id : Option String := none
  toolExecution : Option ToolExec := none
deriving Repr, DecidableEq

/-- A message of an outgoing API request body: `{role, content}` plus
`tool_calls` / `tool_call_id` when present on the source message. -/
structure ApiMsg where
  role : String
  content : String
  tool_calls : Option (List ToolCall) := none
  tool_call_id : Option String := none
deriving Repr, DecidableEq

/-- A tool result (`{tool_call_id, content}`). -/
structure ToolResult where
  tool_call_id : String
  content : String
deriving Repr, DecidableEq

/-- The per-message projection in `sendMessage` /
`handleToolCallsInResponse`: `{role, content}` with `tool_calls` and
`tool_call_id` copied when the source message carries them. -/
def toApiMessage (m : ChatMsg) : ApiMsg :=
  ⟨m.role, m.content, m.tool_calls, m.tool_call_id⟩

/-- The system-prompt-plus-filtered-history part shared by both builders:
`[{role: system, content: systemPrompt}, ...messages.filter(role !==
TOOL_EXECUTION).map(...)]`. -/
def buildApiHistory (systemPrompt : String) (messages : List ChatMsg) :
    List ApiMsg :=
  ⟨"system", systemPrompt, none, none⟩ ::
    (messages.filter (fun m => m.role != TOOL_EXECUTION)).map toApiMessage

/-- The outgoing list of `sendMessage`'s initial request: history plus the
trimmed user message. -/
def sendMessageApiMessages (systemPrompt : String) (messages : List ChatMsg)
    (userMessage : String) : List ApiMsg :=
  buildApiHistory systemPrompt messages ++
    [⟨"user", jsTrim userMessage, none, none⟩]

/-- The outgoing list rebuilt by `handleToolCallsInResponse` for the
continuation: history plus the assistant tool-call message. -/
def handleToolCallsApiMessages (systemPrompt : String)
    (messages : List ChatMsg) (content : String) (toolCalls : List ToolCall) :
    List ApiMsg :=
  buildApiHistory systemPrompt messages ++
    [⟨"assistant", content, some toolCalls, none⟩]

/-- `continueConversationWithTools`: extend the current API list with one
`tool`-role message per result. -/
def continuationApiMessages (current : List ApiMsg)
    (toolResults : List ToolResult) : List ApiMsg :=
  current ++ toolResults.map (fun r => ⟨"tool", r.content, none, some r.tool_call_id⟩)

/-- No projected history message has the display-only role. -/
lemma buildApiHistory_no_toolExecution (systemPrompt : String)
    (messages : List ChatMsg) :
    ∀ m ∈ buildApiHistory systemPrompt messages, m.role ≠ TOOL_EXECUTION := by
  intro m hm
  rcases List.mem_cons.mp hm with hm | hm
  · rw [hm]
    show ("system" : String) ≠ TOOL_EXECUTION
    decide
  · obtain ⟨x, hx, hmap⟩ := List.mem_map.mp hm
    have hxr := List.of_mem_filter hx
    rw [← hmap]
    simpa [toApiMessage] using (by simpa using hxr : x.role ≠ TOOL_EXECUTION)

/-- C8: every outgoing API list the engine builds — the initial request,
the tool-call continuation request, and any extension with tool results —
contains no `tool_execution`-role message; the non-system, non-appended
part is exactly the in-order projection of the non-display history
messages; and the projection preserves role, content, `tool_calls` and
`tool_call_id`. -/
theorem api_messages_exclude_tool_execution (systemPrompt userMessage
    content : String) (messages : List ChatMsg) (toolCalls : List ToolCall)
    (current : List ApiMsg) (toolResults : List ToolResult) (x : ChatMsg) :
    (∀ m ∈ sendMessageApiMessages systemPrompt messages userMessage,
      m.role ≠ TOOL_EXECUTION) ∧
    (∀ m ∈ handleToolCallsApiMessages systemPrompt messages content toolCalls,
      m.role ≠ TOOL_EXECUTION) ∧
    ((∀ m ∈ current, m.role ≠ TOOL_EXECUTION) →
      ∀ m ∈ continuationApiMessages current toolResults,
        m.role ≠ TOOL_EXECUTION) ∧
    ((sendMessageApiMessages systemPrompt messages userMessage).drop 1).dropLast =
      (messages.filter (fun m => m.role != TOOL_EXECUTION)).map toApiMessage ∧
    ((handleToolCallsApiMessages systemPrompt messages content toolCalls).drop 1).dropLast =
      (messages.filter (fun m => m.role != TOOL_EXECUTION)).map toApiMessage ∧
    ((toApiMessage x).role = x.role ∧ (toApiMessage x).content = x.content ∧
      (toApiMessage x).tool_calls = x.tool_calls ∧
      (toApiMessage x).tool_call_id = x.tool_call_id) := by
  refine ⟨?_, ?_, ?_, ?_, ?_, rfl, rfl, rfl, rfl⟩
  · intro m hm
    rcases List.mem_append.mp hm with hm | hm
    · exact buildApiHistory_no_toolExecution _ _ m hm
    · have : m = ⟨"user", jsTrim userMessage, none, none⟩ := by simpa using hm
      rw [this]
      show ("user" : String) ≠ TOOL_EXECUTION
      decide
  · intro m hm
    rcases List.mem_append.mp hm with hm | hm
    · exact buildApiHistory_no_toolExecution _ _ m hm
    · have : m = ⟨"assistant", content, some toolCalls, none⟩ := by simpa using hm
      rw [this]
      show ("assistant" : String) ≠ TOOL_EXECUTION
      decide
  · intro hcur m hm
    rcases List.mem_append.mp hm with hm | hm
    · exact hcur m hm
    · obtain ⟨r, _, hr⟩ := List.mem_map.mp hm
      rw [← hr]
      show ("tool" : String) ≠ TOOL_EXECUTION
      decide
  · unfold sendMessageApiMessages buildApiHistory
    rw [List.cons_append, List.drop_one, List.tail_cons, List.dropLast_concat]
  · unfold handleToolCallsApiMessages buildApiHistory
    rw [List.cons_append, List.drop_one, List.tail_cons, List.dropLast_concat]

/-- Witness for C8 (the conditional continuation conjunct): concrete
instantiation with one history list containing a `tool_execution`
message. -/
theorem api_messages_exclude_tool_execution_witness :
    ((sendMessageApiMessages "sp"
        [⟨"m1", "user", "hi", 0, none, none, none⟩,
          ⟨"m2", "tool_execution", "", 1, none, none,
            some ⟨"add_numbers", "args", "res"⟩⟩] "yo").drop 1).dropLast =
      ([⟨"m1", "user", "hi", 0, none, none, none⟩,
          ⟨"m2", "tool_execution", "", 1, none, none,
            some ⟨"add_numbers", "args", "res"⟩⟩].filter
        (fun m => m.role != TOOL_EXECUTION)).map toApiMessage :=
  (api_messages_exclude_tool_execution "sp" "yo" ""
    [⟨"m1", "user", "hi", 0, none, none, none⟩,
      ⟨"m2", "tool_execution", "", 1, none, none,
        some ⟨"add_numbers", "args", "res"⟩⟩] [] [] []
    ⟨"m1", "user", "hi", 0, none, none, none⟩).2.2.2.1

/-- The `setMessages` updater shared by `handleToolCallsInResponse` and
`sendMessage`'s `onToolCall` callback: when the last message is the
assistant placeholder, update it with the accumulated content if that is
truthy and non-blank (`content && content.trim()`), otherwise splice it
out. -/
def updateOrRemoveLastAssistant (msgs : List ChatMsg) (content : String) :
    List ChatMsg :=
  match msgs.getLast? with
  | some m =>
    if m.role = "assistant" then
      if content ≠ "" ∧ jsTrim content ≠ "" then
        msgs.dropLast ++ [{ m with content := content }]
      else msgs.dropLast
    else msgs
  | none => msgs

/-- Trimming the empty string gives the empty string. -/
lemma jsTrim_empty : jsTrim "" = "" := rfl

/-- C7: on a turn completing with tool calls, the assistant placeholder at
the end of the list is removed exactly when its accumulated content is
empty or whitespace, and otherwise kept with that (necessarily non-empty)
content — so no assistant message with empty content survives this step. -/
theorem assistant_placeholder_kept_iff_nonblank (pre : List ChatMsg)
    (m : ChatMsg) (content : String) (hrole : m.role = "assistant") :
    (jsTrim content = "" →
      updateOrRemoveLastAssistant (pre ++ [m]) content = pre) ∧
    (jsTrim content ≠ "" →
      updateOrRemoveLastAssistant (pre ++ [m]) content =
        pre ++ [{ m with content := content }] ∧ content ≠ "") := by
  have hlast : (pre ++ [m]).getLast? = some m := List.getLast?_concat pre
  have hdrop : (pre ++ [m]).dropLast = pre := List.dropLast_concat
  constructor
  · intro hblank
    unfold updateOrRemoveLastAssistant
    rw [hlast]
    dsimp only
    rw [if_pos hrole, if_neg (by rintro ⟨-, hne⟩; exact hne hblank), hdrop]
  · intro hne
    have hcne : content ≠ "" := by
      intro he
      rw [he, jsTrim_empty] at hne
      exact hne rfl
    refine ⟨?_, hcne⟩
    unfold updateOrRemoveLastAssistant
    rw [hlast]
    dsimp only
    rw [if_pos hrole, if_pos ⟨hcne, hne⟩, hdrop]

/-- Witness for C7: a whitespace-only accumulated content removes the
placeholder; a non-blank one keeps it with that content. -/
theorem assistant_placeholder_kept_iff_nonblank_witness :
    (⟨"m2", "assistant", "", 1, none, none, none⟩ : ChatMsg).role = "assistant" ∧
    updateOrRemoveLastAssistant
        [⟨"m1", "user", "hi", 0, none, none, none⟩,
          ⟨"m2", "assistant", "", 1, none, none, none⟩] "  " =
      [⟨"m1", "user", "hi", 0, none, none, none⟩] ∧
    updateOrRemoveLastAssistant
        [⟨"m1", "user", "hi", 0, none, none, none⟩,
          ⟨"m2", "assistant", "", 1, none, none, none⟩] "ok" =
      [⟨"m1", "user", "hi", 0, none, none, none⟩,
        ⟨"m2", "assistant", "ok", 1, none, none, none⟩] :=
  ⟨rfl,
    (assistant_placeholder_kept_iff_nonblank
      [⟨"m1", "user", "hi", 0, none, none, none⟩]
      ⟨"m2", "assistant", "", 1, none, none, none⟩ "  " rfl).1 (by decide),
    ((assistant_placeholder_kept_iff_nonblank
      [⟨"m1", "user", "hi", 0, none, none, none⟩]
      ⟨"m2", "assistant", "", 1, none, none, none⟩ "ok" rfl).2 (by decide)).1⟩

/-- The observable actions `sendMessage` would take after its guards. -/
inductive ChatEffect where
  | appendUser (content : String)
  | appendAssistantPlaceholder
  | streamRequest (payload : List ApiMsg)
deriving Repr, DecidableEq

/-- The guard prefix of `useChatEngine.sendMessage`: reject when there is
no API client, when the trimmed message is empty, or when a turn is
already in flight (`isLoading || isStreaming`) — each `throw` happens
before any message is appended or any request issued; otherwise produce
the turn's opening actions. -/
def sendMessageStart (hasApiClient : Bool) (userMessage : String)
    (isLoading isStreaming : Bool) (systemPrompt : String)
    (messages : List ChatMsg) : Except String (List ChatEffect) :=
  if !hasApiClient then .error "API key is required"
  else if jsTrim userMessage = "" then .error "Message cannot be empty"
  else if isLoading || isStreaming then .error "Already processing a message"
  else .ok [.appendUser (jsTrim userMessage), .appendAssistantPlaceholder,
    .streamRequest (sendMessageApiMessages systemPrompt messages userMessage)]

/-- C9: a `sendMessage` issued while a turn is in flight (loading or
streaming) never reaches the acting branch — it returns an error and
produces no append or request effect; with the other guards satisfied the
error is exactly `Already processing a message`. -/
theorem sendMessage_concurrent_rejected (hasApiClient : Bool)
    (userMessage systemPrompt : String) (messages : List ChatMsg)
    (isLoading isStreaming : Bool)
    (h : isLoading = true ∨ isStreaming = true) :
    (sendMessageStart hasApiClient userMessage isLoading isStreaming
      systemPrompt messages).isOk = false ∧
    (hasApiClient = true → jsTrim userMessage ≠ "" →
      sendMessageStart hasApiClient userMessage isLoading isStreaming
        systemPrompt messages = .error "Already processing a message") := by
  have hor : (isLoading || isStreaming) = true := by
    rcases h with h | h <;> simp [h]
  constructor
  · unfold sendMessageStart
    cases hasApiClient with
    | false => rfl
    | true =>
      by_cases ht : jsTrim userMessage = ""
      · simp [ht, Except.isOk, Except.toBool]
      · simp [ht, hor, Except.isOk, Except.toBool]
  · intro hc ht
    unfold sendMessageStart
    rw [hc]
    simp [ht, hor]

/-- Witness for C9: streaming in flight with a valid client and message. -/
theorem sendMessage_concurrent_rejected_witness :
    (false = true ∨ true = true) ∧
    sendMessageStart true "hi" false true "sp" [] =
      .error "Already processing a message" :=
  ⟨Or.inr rfl,
    (sendMessage_concurrent_rejected true "hi" "sp" [] false true
      (Or.inr rfl)).2 rfl (by decide)⟩
